import Mathlib

/-!
Verification of the listing search and ranking engine
(Elasticsearch-backed `search.js` module: `Listing.search`,
`Listing.updateScoreTags`, `getExchangeRatesToUSD`).

The module builds boolean queries for an external index engine, so the
embedding models the *query trees the module constructs* as explicit data,
the painless scripts it ships (ranking score, price sort value) as pure
functions, and the asynchronous engine/rate-source calls as explicit
`Except`/oracle parameters.
-/

namespace Search

/-- A leaf clause of the boolean query the module builds.  Each constructor
denotes one JSON shape produced by `Listing.search`:
`matchSimple f v` is the object with a match of value v on field f;
`matchFuzzy` is the all_text must clause carrying fuzziness AUTO and
minimum_should_match -20 percent; `matchBoosted` is the title should clause
with boost 2; `matchPhrase` is the slop-50 phrase clause; `matchAll` is
match_all; `termBool`/`termStr`/`termsList` are term/terms clauses;
`rangeGte`/`rangeLte` are range clauses; `boolShouldTerms f vs` is the
nested bool-should of one term clause per element of vs (the
CONTAINS/ARRAY_STRING filter); `emptyClause` is the empty JSON object. -/
inductive ESClause where
  | matchSimple (field value : String)
  | matchFuzzy (field query fuzziness minimumShouldMatch : String)
  | matchBoosted (field query : String) (boost : Nat) (fuzziness : String)
  | matchPhrase (field query : String) (slop : Nat)
  | matchAll
  | termBool (field : String) (value : Bool)
  | termStr (field value : String)
  | termsList (field : String) (values : List String)
  | rangeGte (field value : String)
  | rangeLte (field value : String)
  | boolShouldTerms (field : String) (values : List String)
  | emptyClause
deriving DecidableEq, Repr

/-- The bool query object: must / must_not / should / filter clause lists. -/
structure BoolQuery where
  must : List ESClause
  must_not : List ESClause
  should : List ESClause
  filter : List ESClause
deriving DecidableEq, Repr

/-- A structured filter as received by `Listing.search`. -/
structure Filter where
  name : String
  operator : String
  value : String
  valueType : String
deriving DecidableEq, Repr

/-- The query argument: `none` models a JS `undefined` query string. -/
def hasQuery : Option String → Bool
  | none => false
  | some q => q != ""

/-- The state of `esQuery` just before the filter loop: the fixed must_not
visibility clauses (status withdrawn, valid false, scoreTags Hide/Delete),
the text clauses when a non-empty query is given (all_text must plus the
two should ranking clauses), and match_all otherwise.  This is also the
value captured by the deep clone into `esAggregationQuery`. -/
def baseQuery (query : Option String) : BoolQuery :=
  let q0 : BoolQuery :=
    { must := []
      must_not :=
        [ .matchSimple "status" "withdrawn"
        , .termBool "valid" false
        , .termsList "scoreTags" ["Hide", "Delete"] ]
      should := []
      filter := [] }
  match query with
  | some q =>
      if q != "" then
        { q0 with
            must := [.matchFuzzy "all_text" q "AUTO" "-20%"]
            should :=
              [ .matchBoosted "title" q 2 "AUTO"
              , .matchPhrase "all_text" q 50 ] }
      else { q0 with must := [.matchAll] }
  | none => { q0 with must := [.matchAll] }

/-- Split of a character list at every occurrence of a separator, the
semantics of the JS String.split with a one-character separator (the empty
string splits to the one-element list holding the empty string). -/
def splitChar (sep : Char) : List Char → List (List Char)
  | [] => [[]]
  | c :: cs =>
      if c = sep then [] :: splitChar sep cs
      else
        match splitChar sep cs with
        | [] => [[c]]
        | p :: ps => (c :: p) :: ps

/-- String-level wrapper of `splitChar`. -/
def splitOnChar (sep : Char) (s : String) : List String :=
  (splitChar sep s.data).map (fun l => String.mk l)

/-- Translation of one structured filter to the clause pushed into
`esQuery.bool.filter`.  Note the final else branch: a filter whose
operator/valueType combination matches no case leaves `innerFilter` as the
empty object, which is still pushed. -/
def filterClause (f : Filter) : ESClause :=
  if f.operator = "GREATER_OR_EQUAL" then .rangeGte f.name f.value
  else if f.operator = "LESSER_OR_EQUAL" then .rangeLte f.name f.value
  else if f.operator = "CONTAINS" && f.valueType = "ARRAY_STRING" then
    .boolShouldTerms f.name (splitOnChar ',' f.value)
  else if f.operator = "EQUALS" then .termStr f.name f.value
  else .emptyClause

/-- The ranked query (`esQuery`) after the filter loop: the base query with
one clause per filter appended to the filter list. -/
def rankedQuery (query : Option String) (filters : List Filter) : BoolQuery :=
  let b := baseQuery query
  { b with filter := b.filter ++ filters.map filterClause }

/-- The aggregation query (`esAggregationQuery`): a deep clone of `esQuery`
taken before the filter loop runs, hence independent of the filters. -/
def aggregationQuery (query : Option String) (filters : List Filter) :
    BoolQuery :=
  baseQuery query

/-- Modelled from the spec: the aggregation query as the spec describes it,
namely the ranked query (filters included) with the ranking should clauses
stripped.  Used only to compare the spec's description with
`aggregationQuery` above. -/
def specAggregationQuery (query : Option String) (filters : List Filter) :
    BoolQuery :=
  { rankedQuery query filters with should := [] }

/-- The per-document price object as stored in the index
(`price.amount` is a decimal string, `price.currency.id` a currency key). -/
structure Price where
  amount : Option String
  currencyId : Option String
deriving DecidableEq, Repr

/-- A listing document as stored in the index, restricted to the fields the
search module reads: visibility fields (status, valid, scoreTags), the
projected fields (title, description, category, subCategory, price), and
the scoring fields. -/
structure StoredListing where
  status : String
  valid : Bool
  scoreTags : List String
  title : Option String
  description : Option String
  category : Option String
  subCategory : Option String
  price : Option Price
  commissionPerUnit : Option String
  scoreMultiplier : Option ℚ
deriving DecidableEq, Repr

/-- Standard inclusion semantics of the engine's bool query: every must
clause matches, no must_not clause matches, every filter clause matches.
Should clauses affect only scoring (the queries built here always carry a
must clause, so should is never promoted to a requirement).  Leaf matching
is the parameter `leaf`. -/
def boolMatches (leaf : ESClause → Bool) (b : BoolQuery) : Bool :=
  b.must.all leaf && !(b.must_not.any leaf) && b.filter.all leaf

/-- Leaf-clause matching against a stored document.  The three clauses the
visibility rules use are grounded (a match on the single-token status
field is equality, a term on valid is boolean equality, a terms clause on
scoreTags is intersection); every other leaf — text relevance, ranges on
arbitrary fields — is delegated to the oracle `txt`, since its semantics
(analysis, fuzziness) belong to the external engine. -/
def docLeaf (txt : ESClause → Bool) (d : StoredListing) : ESClause → Bool
  | .matchSimple f v => if f = "status" then d.status == v else txt (.matchSimple f v)
  | .termBool f v => if f = "valid" then d.valid == v else txt (.termBool f v)
  | .termsList f vs =>
      if f = "scoreTags" then vs.any (fun t => d.scoreTags.contains t)
      else txt (.termsList f vs)
  | .matchAll => true
  | c => txt c

/-- The boost period constant of the ranking script: 18 * 24 * 60 * 60 =
1555200, the number of seconds in 18 days, written with no millisecond
factor. -/
def boostPeriod : Int := 18 * 24 * 60 * 60

/-- The painless ranking script shipped with the ranked query: start from
the engine's base relevance score, multiply by scoreMultiplier when the
document carries one, then, when a createdEvent.timestamp is present and
its age (params.now minus the stored timestamp) lies strictly between 0
and `boostPeriod`, multiply by one plus (age over boostPeriod) times 0.5.
At the call site the script is shipped with, params.now is bound to
new Date().getTime(), the current epoch time in milliseconds, so `nowMs`
is millisecond-scaled while `boostPeriod` is not.  Arithmetic is over ℚ
in place of the script's doubles (all quantities involved are exactly
representable). -/
def scriptScore (baseScore : ℚ) (scoreMultiplier : Option ℚ)
    (createdTimestamp : Option Int) (nowMs : Int) : ℚ :=
  let score := baseScore
  let score :=
    match scoreMultiplier with
    | some m => score * m
    | none => score
  match createdTimestamp with
  | none => score
  | some ts =>
      let age : Int := nowMs - ts
      if 0 < age ∧ age < boostPeriod then
        score * (1 + ((age : ℚ) / (boostPeriod : ℚ)) * (1 / 2))
      else score

/-- The sentinel substitution in `Listing.search`: pageSize -1 is replaced
by 1000 before being used as the request size. -/
def resolveNumberOfItems (n : Int) : Int := if n = -1 then 1000 else n

/-- The `_source` include list of the paged search request. -/
def sourceFields : List String :=
  ["title", "description", "price", "commissionPerUnit", "scoreMultiplier",
   "scoreTags"]

/-- The source object of one hit after the engine applies the request's
`_source` include list: a field is present iff it is on the list (all
fields optional, as in the returned JSON). -/
structure HitSource where
  title : Option String
  description : Option String
  category : Option String
  subCategory : Option String
  price : Option Price
  commissionPerUnit : Option String
  scoreMultiplier : Option ℚ
  scoreTags : Option (List String)
deriving DecidableEq, Repr

/-- Engine-side `_source` filtering: keep exactly the fields named in
`sourceFields`. -/
def applySourceFilter (d : StoredListing) : HitSource :=
  { title := if sourceFields.contains "title" then d.title else none
    description := if sourceFields.contains "description" then d.description else none
    category := if sourceFields.contains "category" then d.category else none
    subCategory := if sourceFields.contains "subCategory" then d.subCategory else none
    price := if sourceFields.contains "price" then d.price else none
    commissionPerUnit :=
      if sourceFields.contains "commissionPerUnit" then d.commissionPerUnit else none
    scoreMultiplier :=
      if sourceFields.contains "scoreMultiplier" then d.scoreMultiplier else none
    scoreTags := if sourceFields.contains "scoreTags" then some d.scoreTags else none }

/-- The reduced listing view `Listing.search` assembles per hit. -/
structure ListingView where
  id : String
  title : Option String
  category : Option String
  subCategory : Option String
  description : Option String
  priceAmount : String
  priceCurrency : String
deriving DecidableEq, Repr

/-- Projection of one hit into the returned listing view: fields are read
off the hit's source object; price amount and currency fall back to 0 and
fiat-USD when absent (the lodash get defaults). -/
def projectHit (id : String) (src : HitSource) : ListingView :=
  { id := id
    title := src.title
    category := src.category
    subCategory := src.subCategory
    description := src.description
    priceAmount := (src.price.bind Price.amount).getD "0"
    priceCurrency := (src.price.bind Price.currencyId).getD "fiat-USD" }

/-- One hit of the paged search, start to finish: engine-side source
filtering followed by the module's projection. -/
def searchHit (id : String) (d : StoredListing) : ListingView :=
  projectHit id (applySourceFilter d)

/-- The listings array assembled from the engine's hits. -/
def searchHits (hits : List (String × StoredListing)) : List ListingView :=
  hits.map (fun h => searchHit h.1 h.2)

/-- Value of a digit list read in base 10. -/
def natOfDigits (cs : List Char) : Nat :=
  cs.foldl (fun a c => a * 10 + (c.toNat - 48)) 0

/-- Models Java Float.parseFloat as the price-sort script uses it,
restricted to plain signed decimal strings (optional sign, digits, at most
one dot); anything else fails, landing the script in its catch branch.
ℚ stands in for the script's floats. -/
def parseDecimal (s : String) : Option ℚ :=
  let signed : Bool × List Char :=
    match s.data with
    | '-' :: cs => (true, cs)
    | '+' :: cs => (false, cs)
    | cs => (false, cs)
  let neg := signed.1
  let body := signed.2
  let finish : ℚ → Option ℚ := fun v => some (if neg then -v else v)
  match splitChar '.' body with
  | [ip] =>
      if ip.length > 0 && ip.all Char.isDigit then
        finish (natOfDigits ip)
      else none
  | [ip, fp] =>
      if (ip.length > 0 || fp.length > 0) && ip.all Char.isDigit
          && fp.all Char.isDigit then
        finish ((natOfDigits ip : ℚ) + (natOfDigits fp : ℚ) / (10 ^ fp.length : ℚ))
      else none
  | _ => none

/-- Lookup in a rate table (a JS object, modelled as an association list
with unique keys; access returns the first binding). -/
def lookupRate (rates : List (String × String)) (key : String) :
    Option String :=
  (rates.find? (fun p => p.1 = key)).map (fun p => p.2)

/-- The try block of the price-sort script: parse the document's
price.amount, look up and parse the rate for its currency id, and return
their product.  `none` models every exception path (missing price object,
unparsable amount, missing rate key, unparsable rate). -/
def priceValue (exchangeRates : List (String × String))
    (price : Option Price) : Option ℚ := do
  let p ← price
  let amountStr ← p.amount
  let amount ← parseDecimal amountStr
  let cur ← p.currencyId
  let rateStr ← lookupRate exchangeRates cur
  let rate ← parseDecimal rateStr
  pure (amount * rate)

/-- The whole price-sort script: the computed USD value, or on any
exception the sentinel — 1000000000 when params.order is asc, 0
otherwise.  Total by construction, mirroring the script's catch-all. -/
def priceSortValue (exchangeRates : List (String × String))
    (order : String) (price : Option Price) : ℚ :=
  match priceValue exchangeRates price with
  | some v => v
  | none => if order = "asc" then 1000000000 else 0

/-- The sort specification `getSortQuery` can return: the script-based
price sort (carrying the order and the rate table it closes over), the
default field sort of the switch statement, or no sort (the empty array,
meaning fallback to relevance order). -/
inductive SortSpec where
  | scriptPrice (order : String) (exchangeRates : List (String × String))
  | fieldSort (field order : String)
  | noSort
deriving DecidableEq, Repr

/-- Truthiness-plus-length test `sort && sort.length > 0` (undefined is
modelled as `none`). -/
def isPresent : Option String → Bool
  | none => false
  | some s => s.length > 0

def sortWhiteList : List String := ["price.amount"]

def orderWhiteList : List String := ["asc", "desc"]

/-- Body of `getSortQuery` up to the catch: when both sort and order are
present, either both are whitelisted and a sort is produced (the
price.amount script sort, or the default field sort), or the non-whitelist
error is thrown; when either is missing or empty, the empty sort is
returned directly. -/
def getSortQueryInner (exchangeRates : List (String × String))
    (sort order : Option String) : Except String SortSpec :=
  if isPresent sort && isPresent order then
    let s := sort.getD ""
    let o := order.getD ""
    if sortWhiteList.contains s && orderWhiteList.contains o then
      if s = "price.amount" then .ok (.scriptPrice o exchangeRates)
      else .ok (.fieldSort s o)
    else
      .error ("Sort variables are not whitelisted - sort = " ++ s ++
        ", order = " ++ o ++ ", disabling sorting")
  else .ok .noSort

/-- `getSortQuery` with its catch: a thrown error is logged (the Bool
records that) and turned into the empty sort, so the call never fails. -/
def getSortQuery (exchangeRates : List (String × String))
    (sort order : Option String) : SortSpec × Bool :=
  match getSortQueryInner exchangeRates sort order with
  | .ok s => (s, false)
  | .error _ => (.noSort, true)

/-- The fixed supported currency set of `Listing.search`. -/
def supportedCurrencies : List String :=
  ["fiat-CNY", "fiat-EUR", "fiat-GBP", "fiat-JPY", "fiat-KRW", "fiat-SGD",
   "fiat-USD", "token-DAI", "token-ETH"]

/-- The static fallback table assigned when the whole rate retrieval
throws. -/
def fallbackRates : List (String × String) :=
  [("fiat-CNY", "0.14"), ("fiat-EUR", "1.12"), ("fiat-GBP", "1.22"),
   ("fiat-JPY", "0.0094"), ("fiat-KRW", "0.00082"), ("fiat-SGD", "0.72"),
   ("fiat-USD", "1.0"), ("token-DAI", "1.0"), ("token-ETH", "200.0")]

/-- The live rate source: either the whole retrieval fails (redis import or
any lookup rejects, landing in the catch), or a key-value getter is
available, with `none` modelling a null (missing) value for a key. -/
inductive RedisSource where
  | unavailable
  | available (get : String → Option String)

/-- The quote side of a currency key: element 1 of the split on the dash,
or the string rendering of JS undefined when there is none. -/
def quoteSide (currency : String) : String :=
  ((splitOnChar '-' currency).get? 1).getD "undefined"

/-- One element of the promise array: the literal string 1 for a currency
whose quote side is USD, otherwise the getter applied to the derived redis
key. -/
def perCurrencyResult (get : String → Option String) (currency : String) :
    Option String :=
  if quoteSide currency = "USD" then some "1"
  else get (quoteSide currency ++ "-USD_price")

/-- The redis keys the available-source path actually queries: one per
requested currency whose quote side is not USD. -/
def lookupsPerformed (currencies : List String) : List String :=
  currencies.filterMap (fun c =>
    if quoteSide c = "USD" then none
    else some (quoteSide c ++ "-USD_price"))

/-- `getExchangeRatesToUSD`: on an unavailable source, the static fallback
table; otherwise each requested currency maps to its per-currency result,
with null results logged and omitted from the mapping. -/
def getExchangeRatesToUSD (src : RedisSource) (currencies : List String) :
    List (String × String) :=
  match src with
  | .unavailable => fallbackRates
  | .available get =>
      currencies.foldl (fun acc c =>
        match perCurrencyResult get c with
        | none => acc
        | some r => acc ++ [(c, r)]) []

/-- `Listing.updateScoreTags`: the awaited engine get either fails (and
propagates) or yields the document; the tags are replaced, the score is
recomputed from the full updated document, and the listing is returned.
The engine update call's outcome (`updateResult`) never influences the
returned value because the call is not awaited in the source. -/
def updateScoreTags (getResult : Except String StoredListing)
    (scoreListing : StoredListing → ℚ) (tags : List String)
    (updateResult : Except String Unit) : Except String StoredListing :=
  match getResult with
  | .error e => .error e
  | .ok source =>
      let listing := { source with scoreTags := tags }
      let m := scoreListing listing
      .ok { listing with scoreMultiplier := some m }

/-- A concrete stored listing used to evaluate the pipeline on explicit
inputs. -/
def sampleListing : StoredListing :=
  { status := "active"
    valid := true
    scoreTags := []
    title := some "Bike"
    description := some "Red bike"
    category := some "schemas.forSale"
    subCategory := some "schemas.bicycles"
    price := some { amount := some "10", currencyId := some "fiat-USD" }
    commissionPerUnit := none
    scoreMultiplier := some 1 }

theorem rates_foldl_eq_filterMap (g : String → Option String) :
    ∀ (l : List String) (init : List (String × String)),
      l.foldl (fun acc c =>
          match perCurrencyResult g c with
          | none => acc
          | some r => acc ++ [(c, r)]) init
        = init ++ l.filterMap
            (fun c => (perCurrencyResult g c).map (fun r => (c, r))) := by
  intro l
  induction l with
  | nil => intro init; simp
  | cons hd tl ih =>
      intro init
      cases hres : perCurrencyResult g hd with
      | none => simp [List.foldl_cons, hres, ih]
      | some r => simp [List.foldl_cons, hres, ih]

theorem lookup_filterMap_usd (g : String → Option String) :
    ∀ (l : List String) (c : String), c ∈ l → quoteSide c = "USD" →
      lookupRate
          (l.filterMap (fun x => (perCurrencyResult g x).map (fun r => (x, r))))
          c
        = some "1" := by
  intro l
  induction l with
  | nil => intro c hmem _; exact absurd hmem (List.not_mem_nil c)
  | cons hd tl ih =>
      intro c hmem husd
      have hc : perCurrencyResult g c = some "1" := by
        simp [perCurrencyResult, husd]
      rcases List.mem_cons.mp hmem with heq | htl
      · subst heq
        simp [hc, lookupRate]
      · cases hres : perCurrencyResult g hd with
        | none => simpa [hres] using ih c htl husd
        | some r =>
            by_cases hhd : hd = c
            · subst hhd
              rw [hres] at hc
              simp [hres, lookupRate, hc.symm]
            · have := ih c htl husd
              simpa [hres, lookupRate, hhd] using this

/-- C1 counterexample: with query "bike" and one EQUALS category filter,
the aggregation query is not the ranked query with only the should clauses
removed — the filter-derived clause is missing from it (and the should
clauses are still there), because the clone is taken before the filter
loop runs. -/
theorem aggregation_not_ranked_minus_should :
    aggregationQuery (some "bike")
        [{ name := "category", operator := "EQUALS",
           value := "schemas.forSale", valueType := "STRING" }]
      ≠ specAggregationQuery (some "bike")
        [{ name := "category", operator := "EQUALS",
           value := "schemas.forSale", valueType := "STRING" }] := by
  decide

/-- C1 (amended): the aggregation query equals the ranked query built with
an empty filter list — it keeps the text and visibility inclusion and
exclusion clauses and the ranking should clauses, and contains no clause
derived from the user's filters, for every query string and filter list. -/
theorem aggregation_query_is_unfiltered_ranked_query
    (query : Option String) (filters : List Filter) :
    aggregationQuery query filters = rankedQuery query [] := by
  unfold aggregationQuery rankedQuery
  simp

/-- C3: for every query and filter list, the ranked query's must_not list
is exactly the three unconditional visibility clauses (status withdrawn,
valid false, scoreTags Hide/Delete); consequently, under bool-query
inclusion semantics, a document that is withdrawn, invalid, or tagged
Hide or Delete never matches the ranked query, whatever the text-match
oracle says about the remaining clauses. -/
theorem visibility_exclusions_unconditional
    (query : Option String) (filters : List Filter)
    (d : StoredListing) (txt : ESClause → Bool) :
    (rankedQuery query filters).must_not
        = [.matchSimple "status" "withdrawn", .termBool "valid" false,
           .termsList "scoreTags" ["Hide", "Delete"]]
    ∧ (d.status = "withdrawn" ∨ d.valid = false ∨
          d.scoreTags.contains "Hide" = true ∨
          d.scoreTags.contains "Delete" = true →
        boolMatches (docLeaf txt d) (rankedQuery query filters) = false) := by
  have hmn : (rankedQuery query filters).must_not
      = [.matchSimple "status" "withdrawn", .termBool "valid" false,
         .termsList "scoreTags" ["Hide", "Delete"]] := by
    unfold rankedQuery baseQuery
    cases query with
    | none => rfl
    | some q =>
        by_cases hq : q != "" <;> simp [hq]
  refine ⟨hmn, fun h => ?_⟩
  have hany : (rankedQuery query filters).must_not.any (docLeaf txt d) = true := by
    rw [hmn]
    rcases h with h | h | h | h
    · simp [docLeaf, h]
    · simp [docLeaf, h]
    · have hm : "Hide" ∈ d.scoreTags := by simpa using h
      simp [docLeaf, hm]
    · have hm : "Delete" ∈ d.scoreTags := by simpa using h
      simp [docLeaf, hm]
  simp [boolMatches, hany]

/-- C3 witness: a withdrawn document does not match the ranked query of the
empty search, even with a text oracle that matches everything. -/
theorem visibility_exclusions_unconditional_witness :
    boolMatches
        (docLeaf (fun _ => true) { sampleListing with status := "withdrawn" })
        (rankedQuery none []) = false :=
  (visibility_exclusions_unconditional none []
      { sampleListing with status := "withdrawn" } (fun _ => true)).2
    (Or.inl rfl)

/-- C6 counterexample: a filter with unknown operator BOGUS does contribute
a clause — the empty object — so the ranked query is not the one built
without the filter. -/
theorem unknown_filter_not_ignored :
    rankedQuery none
        [{ name := "category", operator := "BOGUS", value := "x",
           valueType := "STRING" }]
      ≠ rankedQuery none [] := by
  decide

/-- C6 (amended): a filter whose operator/valueType combination matches
none of GREATER_OR_EQUAL, LESSER_OR_EQUAL, EQUALS, or CONTAINS with
ARRAY_STRING appends the empty clause object to the ranked query's filter
list (rather than contributing no clause); no well-formed clause is
derived from it. -/
theorem unknown_filter_appends_empty_clause
    (query : Option String) (fs : List Filter) (f : Filter)
    (h1 : f.operator ≠ "GREATER_OR_EQUAL")
    (h2 : f.operator ≠ "LESSER_OR_EQUAL")
    (h3 : ¬(f.operator = "CONTAINS" ∧ f.valueType = "ARRAY_STRING"))
    (h4 : f.operator ≠ "EQUALS") :
    (rankedQuery query (fs ++ [f])).filter
      = (rankedQuery query fs).filter ++ [ESClause.emptyClause] := by
  have hf : filterClause f = ESClause.emptyClause := by
    by_cases hc : f.operator = "CONTAINS"
    · have hv : f.valueType ≠ "ARRAY_STRING" := fun hv => h3 ⟨hc, hv⟩
      simp [filterClause, h1, h2, h4, hc, hv]
    · simp [filterClause, h1, h2, h4, hc]
  simp [rankedQuery, hf]

/-- C6 witness: appending a BOGUS-operator filter to the empty filter list
turns the empty query's filter list into the one-element list holding the
empty clause. -/
theorem unknown_filter_appends_empty_clause_witness :
    (rankedQuery none
        ([] ++ [{ name := "category", operator := "BOGUS", value := "x",
                  valueType := "STRING" }])).filter
      = (rankedQuery none []).filter ++ [ESClause.emptyClause] :=
  unknown_filter_appends_empty_clause none []
    { name := "category", operator := "BOGUS", value := "x",
      valueType := "STRING" }
    (by decide) (by decide) (by decide) (by decide)

/-- C2: the recency boost is broken by a unit mismatch — the call site
binds params.now to the current epoch time in milliseconds while
boostPeriod = 18 * 24 * 60 * 60 carries no millisecond factor.  Evaluated
at now = 1600000000000 ms with base relevance 10 and multiplier 2: a
document created 9 days earlier scores 20, not the claimed 25, whether its
stored timestamp is in milliseconds (1599222400000) or in seconds
(1599222400) — in both cases the age exceeds the 1555200 threshold, so no
boost fires.  The 1.25 boost the claim attributes to a 9-day-old document
actually goes to a document 777600 milliseconds (about 13 minutes) old:
the effective window is about 26 minutes, not 18 days. -/
theorem ranking_boost_unit_mismatch :
    scriptScore 10 (some 2) (some 1599222400000) 1600000000000 = 20
    ∧ scriptScore 10 (some 2) (some 1599222400000) 1600000000000 ≠ 25
    ∧ scriptScore 10 (some 2) (some 1599222400) 1600000000000 = 20
    ∧ scriptScore 10 (some 2) (some 1599999222400) 1600000000000 = 25 := by
  have h1 : scriptScore 10 (some 2) (some 1599222400000) 1600000000000
      = if 0 < (1600000000000 - 1599222400000 : Int)
            ∧ (1600000000000 - 1599222400000 : Int) < boostPeriod then
          10 * 2 * (1 + ((1600000000000 - 1599222400000 : Int) : ℚ)
            / (boostPeriod : ℚ) * (1 / 2))
        else 10 * 2 := rfl
  have h3 : scriptScore 10 (some 2) (some 1599222400) 1600000000000
      = if 0 < (1600000000000 - 1599222400 : Int)
            ∧ (1600000000000 - 1599222400 : Int) < boostPeriod then
          10 * 2 * (1 + ((1600000000000 - 1599222400 : Int) : ℚ)
            / (boostPeriod : ℚ) * (1 / 2))
        else 10 * 2 := rfl
  have h4 : scriptScore 10 (some 2) (some 1599999222400) 1600000000000
      = if 0 < (1600000000000 - 1599999222400 : Int)
            ∧ (1600000000000 - 1599999222400 : Int) < boostPeriod then
          10 * 2 * (1 + ((1600000000000 - 1599999222400 : Int) : ℚ)
            / (boostPeriod : ℚ) * (1 / 2))
        else 10 * 2 := rfl
  refine ⟨?_, ?_, ?_, ?_⟩
  · rw [h1, if_neg (by decide)]
    norm_num
  · rw [h1, if_neg (by decide)]
    norm_num
  · rw [h3, if_neg (by decide)]
    norm_num
  · rw [h4, if_pos (by constructor <;> decide)]
    have hc : ((1600000000000 - 1599999222400 : Int) : ℚ) = 777600 := by
      norm_num
    rw [hc]
    norm_num [boostPeriod]

/-- C4: the engine update call inside `updateScoreTags` is not awaited, so
its failure never reaches the caller — evaluated here at a concrete input
where the update is rejected with an engine-unreachable error, the call
still returns the optimistically updated listing instead of the error. -/
theorem update_failure_not_propagated :
    updateScoreTags (.ok sampleListing) (fun _ => 1) ["Hide"]
        (.error "update rejected: engine unreachable")
      = .ok { sampleListing with scoreTags := ["Hide"], scoreMultiplier := some 1 } := rfl

/-- C5: evaluated on a stored listing that carries a category and a
subCategory, the search projection returns the id, title, description and
price, but its category and subCategory are missing, because the paged
request's source include list omits those two fields. -/
theorem projection_loses_category :
    (searchHit "1-000-1" sampleListing).id = "1-000-1"
    ∧ (searchHit "1-000-1" sampleListing).title = some "Bike"
    ∧ (searchHit "1-000-1" sampleListing).description = some "Red bike"
    ∧ (searchHit "1-000-1" sampleListing).priceAmount = "10"
    ∧ (searchHit "1-000-1" sampleListing).priceCurrency = "fiat-USD"
    ∧ sampleListing.category = some "schemas.forSale"
    ∧ sampleListing.subCategory = some "schemas.bicycles"
    ∧ (searchHit "1-000-1" sampleListing).category = none
    ∧ (searchHit "1-000-1" sampleListing).subCategory = none :=
  ⟨rfl, rfl, rfl, rfl, rfl, rfl, rfl, rfl, rfl⟩

/-- C7: whenever the price-sort script's computation fails (missing or
unparsable price amount, missing or unparsable currency rate), the
per-document sort value is the sentinel: 1000000000 when the order is asc
and 0 when it is desc, so the document sorts to the back in either
direction and the computation never throws (the catch makes it total). -/
theorem price_sort_sentinel (exchangeRates : List (String × String))
    (price : Option Price)
    (h : priceValue exchangeRates price = none) :
    priceSortValue exchangeRates "asc" price = 1000000000
    ∧ priceSortValue exchangeRates "desc" price = 0 := by
  constructor <;> simp [priceSortValue, h]

/-- C7 witness: a listing whose price amount is the unparsable string abc
gets sentinel 1000000000 ascending and 0 descending. -/
theorem price_sort_sentinel_witness :
    priceSortValue [] "asc"
        (some { amount := some "abc", currencyId := some "fiat-USD" })
      = 1000000000
    ∧ priceSortValue [] "desc"
        (some { amount := some "abc", currencyId := some "fiat-USD" })
      = 0 :=
  price_sort_sentinel []
    (some { amount := some "abc", currencyId := some "fiat-USD" }) rfl

/-- C8: every sort/order pair outside the whitelist (sort other than
price.amount, order other than asc or desc, or either missing or empty)
resolves to the empty sort — falling back to ranking order — without
failing the call; when both values are present the rejection is recorded
in the log flag. -/
theorem sort_whitelist_fallback (exchangeRates : List (String × String))
    (sort order : Option String)
    (h : ¬(sort = some "price.amount"
        ∧ (order = some "asc" ∨ order = some "desc"))) :
    (getSortQuery exchangeRates sort order).1 = SortSpec.noSort
    ∧ (isPresent sort = true → isPresent order = true →
        (getSortQuery exchangeRates sort order).2 = true) := by
  cases sort with
  | none => simp [getSortQuery, getSortQueryInner, isPresent]
  | some s =>
      cases order with
      | none => simp [getSortQuery, getSortQueryInner, isPresent]
      | some o =>
          by_cases hp : isPresent (some s) && isPresent (some o)
          · have hcond : ¬(s ∈ sortWhiteList ∧ o ∈ orderWhiteList) := by
              rintro ⟨hs, ho⟩
              simp only [sortWhiteList, List.mem_singleton] at hs
              simp only [orderWhiteList, List.mem_cons, List.mem_singleton,
                List.not_mem_nil, or_false] at ho
              exact h ⟨by rw [hs],
                by rcases ho with ho | ho <;> simp [ho]⟩
            simp [getSortQuery, getSortQueryInner, hp, hcond]
          · have hor := hp
            simp only [Bool.and_eq_true, not_and_or, Bool.not_eq_true] at hor
            constructor
            · simp [getSortQuery, getSortQueryInner, hp]
            · intro h1 h2
              rcases hor with hthis | hthis <;>
                simp [hthis] at h1 h2

/-- C8 witness: a non-whitelisted sort field with a valid order yields no
sort and sets the log flag. -/
theorem sort_whitelist_fallback_witness :
    (getSortQuery [] (some "bogus") (some "asc")).1 = SortSpec.noSort
    ∧ (getSortQuery [] (some "bogus") (some "asc")).2 = true :=
  ⟨(sort_whitelist_fallback [] (some "bogus") (some "asc") (by decide)).1,
   (sort_whitelist_fallback [] (some "bogus") (some "asc") (by decide)).2
     rfl rfl⟩

/-- C9 counterexample: on an execution where the rate source is
unavailable, the call returns the static fallback table regardless of the
requested currencies, and there fiat-USD carries the rate string 1.0, not
the rate string 1. -/
theorem usd_rate_fallback_not_one :
    getExchangeRatesToUSD RedisSource.unavailable ["fiat-USD"] = fallbackRates
    ∧ lookupRate (getExchangeRatesToUSD RedisSource.unavailable ["fiat-USD"])
        "fiat-USD" = some "1.0"
    ∧ lookupRate (getExchangeRatesToUSD RedisSource.unavailable ["fiat-USD"])
        "fiat-USD" ≠ some "1" := by
  refine ⟨rfl, rfl, ?_⟩
  decide

/-- C9 (amended): on every execution where the live rate source is
available, every requested currency whose quote side is USD maps to the
rate string 1 in the returned table, its per-currency resolution is the
literal string 1, and that resolution never consults the live source (the
result is the same under any two getters); only when the source is wholly
unavailable is the static fallback table returned instead, where fiat-USD
carries 1.0. -/
theorem usd_quote_resolves_to_one (g h : String → Option String)
    (currencies : List String) (c : String)
    (hmem : c ∈ currencies) (husd : quoteSide c = "USD") :
    lookupRate (getExchangeRatesToUSD (RedisSource.available g) currencies) c
      = some "1"
    ∧ perCurrencyResult g c = some "1"
    ∧ perCurrencyResult g c = perCurrencyResult h c := by
  have hpc : ∀ k : String → Option String, perCurrencyResult k c = some "1" :=
    fun k => by simp [perCurrencyResult, husd]
  refine ⟨?_, hpc g, (hpc g).trans (hpc h).symm⟩
  have hred : getExchangeRatesToUSD (RedisSource.available g) currencies
      = currencies.foldl (fun acc c =>
          match perCurrencyResult g c with
          | none => acc
          | some r => acc ++ [(c, r)]) [] := rfl
  rw [hred, rates_foldl_eq_filterMap g currencies []]
  simpa using lookup_filterMap_usd g currencies c hmem husd

/-- C9 amended-claim witness: requesting fiat-USD and fiat-EUR against an
available source that knows no keys still maps fiat-USD to 1. -/
theorem usd_quote_resolves_to_one_witness :
    lookupRate
        (getExchangeRatesToUSD (RedisSource.available (fun _ => none))
          ["fiat-USD", "fiat-EUR"])
        "fiat-USD" = some "1"
    ∧ perCurrencyResult (fun _ => none) "fiat-USD" = some "1" :=
  ⟨(usd_quote_resolves_to_one (fun _ => none) (fun _ => none)
      ["fiat-USD", "fiat-EUR"] "fiat-USD" (by decide) (by decide)).1,
   (usd_quote_resolves_to_one (fun _ => none) (fun _ => none)
      ["fiat-USD", "fiat-EUR"] "fiat-USD" (by decide) (by decide)).2.1⟩

/-- C10: pageSize -1 is replaced by a request size of exactly 1000, and
the listings array assembled from an engine response respecting that size
has at most 1000 entries. -/
theorem page_size_sentinel :
    resolveNumberOfItems (-1) = 1000
    ∧ ∀ hits : List (String × StoredListing),
        hits.length ≤ (resolveNumberOfItems (-1)).toNat →
        (searchHits hits).length ≤ 1000 := by
  refine ⟨rfl, fun hits h => ?_⟩
  have hlen : (searchHits hits).length = hits.length := List.length_map _ _
  rw [hlen]
  simpa [resolveNumberOfItems] using h

/-- C10 witness: the empty response respects the bound. -/
theorem page_size_sentinel_witness :
    (searchHits []).length ≤ 1000 :=
  page_size_sentinel.2 [] (by decide)

end Search


